import Mathlib

/-!
Verification of the SSP auction engine, bid-request builder, supply-chain
signer, SSAI normalizer and sellers.json projector, shallowly embedded from
the Go sources (`backend/pkg/ssp.go`, the supply-chain module, the Publica
SSAI handler and `backend/pkg/sellers_json.go`).

Prices (Go `float64`) are modelled as `ℚ`: every operation the embedded code
performs on prices is a comparison or a copy, never arithmetic, so the
embedding is exact on all inputs expressible in both types.
-/

/-- A demand partner, embedding the fields of Go `DemandPartner` used by the
auction engine (`ssp.go`). -/
structure DemandPartner where
  id : String
  name : String
deriving DecidableEq, Repr

/-- An OpenRTB bid, embedding the fields of Go `Bid` the auction engine and
the claims touch (`id`, `impid`, `price`, `dealid`, `adm`); remaining
optional wire fields are omitted as no embedded function reads them. -/
structure Bid where
  id : String
  impid : String
  price : ℚ
  dealid : String := ""
  adm : String := ""
deriving DecidableEq, Repr

/-- A seat bid: Go `SeatBid` (fields `Bid`, `Seat`). -/
structure SeatBid where
  bid : List Bid
  seat : String := ""
deriving DecidableEq, Repr

/-- A bid response: Go `BidResponse` (fields used: `ID`, `SeatBid`). -/
structure BidResponse where
  id : String := ""
  seatBid : List SeatBid
deriving DecidableEq, Repr

/-- Video placement settings: Go `VideoSettings`. -/
structure VideoSettings where
  mimes : List String
  minDuration : Int := 0
  maxDuration : Int
  protocols : List Int
  linearity : Int := 0
  startDelay : Int := 0
  playbackMethod : List Int := []
  api : List Int := []
deriving DecidableEq, Repr

/-- An ad format size: Go `Format`. -/
structure Format where
  w : Int
  h : Int
deriving DecidableEq, Repr

/-- A placement: Go `Placement` (fields used by the embedded functions:
`ID`, `SiteID`, `AdType`, `Width`, `Height`, `MinBidFloor`, `Formats`,
`Video`; timestamps and `Name`/`Active` are not read by them). -/
structure Placement where
  id : String
  siteID : String := ""
  adType : String := ""
  width : Int := 0
  height : Int := 0
  minBidFloor : ℚ
  formats : List Format := []
  video : Option VideoSettings := none
deriving DecidableEq, Repr

/-- Go `BidWithPartner`: a bid tagged with its originating partner. -/
structure BidWithPartner where
  bid : Bid
  partner : DemandPartner
deriving DecidableEq, Repr

/-- Go `AuctionResult`. -/
structure AuctionResult where
  winningBid : Bid
  winningPartner : DemandPartner
  allBids : List BidWithPartner
  auctionType : Int
  clearedPrice : ℚ
deriving DecidableEq, Repr

/-- The bid-collection loop of `RunAuction` (`ssp.go`): iterate the partner
responses in the given iteration order, skip `nil` responses, and for each
bid of each seat bid append it (tagged with the partner) when
`bid.Price >= placement.MinBidFloor`.  The Go `map` iteration order is made
explicit as the order of the input list. -/
def admittedBids (responses : List (DemandPartner × Option BidResponse))
    (placement : Placement) : List BidWithPartner :=
  responses.foldl (fun acc pr =>
    match pr.2 with
    | none => acc
    | some resp =>
        resp.seatBid.foldl (fun acc2 sb =>
          sb.bid.foldl (fun acc3 b =>
            if placement.minBidFloor ≤ b.price then acc3 ++ [⟨b, pr.1⟩]
            else acc3) acc2) acc) []

/-- One pass of the nested-loop swap sort of `RunAuction`: with current
element `x` at position `i`, scan the suffix; whenever a strictly higher
price is found, swap it into position `i` (the displaced element lands at
the scanned position).  Returns the element finally at position `i` and the
modified suffix. -/
def selPass (x : BidWithPartner) :
    List BidWithPartner → BidWithPartner × List BidWithPartner
  | [] => (x, [])
  | y :: ys =>
      if x.bid.price < y.bid.price then
        ((selPass y ys).1, x :: (selPass y ys).2)
      else
        ((selPass x ys).1, y :: (selPass x ys).2)

/-- The passes of the nested-loop sort, one per outer-loop index; `selPass`
preserves length, so running one pass per element of the original list is
exactly the Go loop (whose final pass over a single element is a no-op). -/
def goSortAux : Nat → List BidWithPartner → List BidWithPartner
  | 0, l => l
  | _ + 1, [] => []
  | fuel + 1, x :: xs => (selPass x xs).1 :: goSortAux fuel (selPass x xs).2

/-- The full nested-loop sort of `RunAuction` (descending by price): pass
`i` of the Go loop acts exactly as `selPass` on the suffix starting at `i`. -/
def goSortBids (l : List BidWithPartner) : List BidWithPartner :=
  goSortAux l.length l

/-- `RunAuction` (`ssp.go`): collect bids at or above the placement floor,
return `nil` when none, sort descending by price, pick the head as winner,
and clear at the floor for a single bid or at the second bid's price clamped
below by the floor otherwise.  Auction type is always `2` (second price). -/
def RunAuction (responses : List (DemandPartner × Option BidResponse))
    (placement : Placement) : Option AuctionResult :=
  let allBids := admittedBids responses placement
  if allBids = [] then none
  else
    match goSortBids allBids with
    | [] => none
    | winner :: rest =>
        let clearedPrice :=
          match rest with
          | [] => placement.minBidFloor
          | second :: _ =>
              if second.bid.price < placement.minBidFloor then
                placement.minBidFloor
              else second.bid.price
        some { winningBid := winner.bid
               winningPartner := winner.partner
               allBids := winner :: rest
               auctionType := 2
               clearedPrice := clearedPrice }

/-- Spec-level second-highest price of a multiset of admitted prices: entry 1
of the list sorted descending by a reference sort (Mathlib insertion sort),
independent of the code's own sorting routine. -/
def specSecondPrice (prices : List ℚ) : ℚ :=
  (List.insertionSort (fun a b : ℚ => a ≥ b) prices).getD 1 0

/-- Spec-level predicate: the tagged bid `bw` occurs somewhere in the partner
responses (before any floor or deal filtering). -/
def inResponses (responses : List (DemandPartner × Option BidResponse))
    (bw : BidWithPartner) : Prop :=
  ∃ resp : BidResponse, (bw.partner, some resp) ∈ responses ∧
    ∃ sb ∈ resp.seatBid, bw.bid ∈ sb.bid

/-- A publisher: Go `Publisher` (`models.go`); fields used by the embedded
functions: `ID`, `Name`, `Domain`, `Active`. -/
structure Publisher where
  id : String
  name : String := ""
  email : String := ""
  domain : String := ""
  active : Bool := true
  revShare : ℚ := 0
deriving DecidableEq, Repr

/-- A site: Go `Site`; fields used: `ID`, `Name`, `Domain`, `Cat`. -/
structure Site where
  id : String
  publisherID : String := ""
  name : String := ""
  domain : String := ""
  page : String := ""
  cat : List String := []
  active : Bool := true
deriving DecidableEq, Repr

/-- Go `AdRequest` (`ssp.go`): the ingress projection handed to
`BuildBidRequest` (the `Params` map is not read by it). -/
structure AdRequest where
  placementID : String
  url : String := ""
  referer : String := ""
  userAgent : String := ""
  ip : String := ""
  width : Int := 0
  height : Int := 0
deriving DecidableEq, Repr

/-- OpenRTB `Banner` object; fields Go `buildBanner` writes. -/
structure Banner where
  format : List Format := []
  w : Int := 0
  h : Int := 0
  pos : Int := 0
  id : String := ""
deriving DecidableEq, Repr

/-- OpenRTB `Video` object; fields written by Go `buildVideo` and by the
SSAI `convertToOpenRTB` (nil pointers for `W`/`H` never occur on the paths
embedded here, so they are modelled as plain integers). -/
structure Video where
  mimes : List String := []
  minDuration : Int := 0
  maxDuration : Int := 0
  protocols : List Int := []
  w : Int := 0
  h : Int := 0
  startDelay : Int := 0
  linearity : Int := 0
  playbackMethod : List Int := []
  api : List Int := []
  pos : Int := 0
deriving DecidableEq, Repr

/-- OpenRTB `Audio` object (declared in the Go data model; no embedded
function ever constructs one). -/
structure Audio where
  mimes : List String := []
deriving DecidableEq, Repr

/-- OpenRTB `Native` object; fields Go `BuildBidRequest` writes. -/
structure Native where
  request : String
  ver : String := ""
deriving DecidableEq, Repr

/-- OpenRTB `Deal` object inside `PMP`; fields the SSAI handler writes. -/
structure PMPDeal where
  id : String
  bidfloor : ℚ := 0
deriving DecidableEq, Repr

/-- OpenRTB `PMP` object. -/
structure PMP where
  privateAuction : Int := 0
  deals : List PMPDeal := []
deriving DecidableEq, Repr

/-- OpenRTB `Imp` object; fields written by the embedded builders. -/
structure Impression where
  id : String
  banner : Option Banner := none
  video : Option Video := none
  audio : Option Audio := none
  native : Option Native := none
  pmp : Option PMP := none
  tagID : String := ""
  bidFloor : ℚ := 0
  bidFloorCur : String := ""
  secure : Int := 0
deriving DecidableEq, Repr

/-- Publisher object nested in an OpenRTB site: Go `Publisher2`. -/
structure Publisher2 where
  id : String
  name : String := ""
  domain : String := ""
deriving DecidableEq, Repr

/-- Content metadata nested in an OpenRTB site (SSAI path). -/
structure ContentInfo where
  id : String := ""
  genre : String := ""
  language : String := ""
deriving DecidableEq, Repr

/-- OpenRTB `Site` object: Go `SiteInfo`. -/
structure SiteInfo where
  id : String
  name : String := ""
  domain : String := ""
  page : String := ""
  ref : String := ""
  cat : List String := []
  publisher : Option Publisher2 := none
  content : Option ContentInfo := none
deriving DecidableEq, Repr

/-- OpenRTB `Device` object; fields the embedded builders write. -/
structure Device where
  ua : String := ""
  ip : String := ""
  ifa : String := ""
deriving DecidableEq, Repr

/-- A JSON value (objects as association lists in wire order), used to model
`encoding/json` marshalling of the supply-chain object and of `source.ext`.
Numbers are modelled as integers: every numeric field the embedded
functions serialize is a Go `int`. -/
inductive Json where
  | null : Json
  | bool (b : Bool) : Json
  | num (n : Int) : Json
  | str (s : String) : Json
  | arr (elems : List Json) : Json
  | obj (fields : List (String × Json)) : Json

/-- The dynamic value stored in Go `Source.Ext` (an `interface{}` field):
its Go dynamic type is what the `AddToSource` type switch inspects.  The
payload is modelled by its parsed JSON value (well-formed payloads). -/
inductive ExtRep where
  | str (j : Json)
  | bytes (j : Json)
  | raw (j : Json)

/-- OpenRTB `Source` object: Go `Source`. -/
structure Source where
  fd : Int := 0
  tid : String := ""
  pchain : String := ""
  ext : Option ExtRep := none

/-- OpenRTB `BidRequest`; fields written by the embedded builders. -/
structure BidRequest where
  id : String
  imp : List Impression := []
  site : Option SiteInfo := none
  device : Option Device := none
  atType : Int := 0  -- Go field `At` (`at` is reserved in Lean)
  tmax : Int := 0
  cur : List String := []
  source : Option Source := none

/-- Go `buildBanner` (`ssp.go`): position 1, formats copied from the
placement when present, else W×H when both positive, else left zero. -/
def buildBanner (placement : Placement) : Banner :=
  let banner : Banner := { id := placement.id, pos := 1 }
  if placement.formats.length > 0 then
    { banner with format := placement.formats }
  else if placement.width > 0 && placement.height > 0 then
    { banner with w := placement.width, h := placement.height,
                  format := [{ w := placement.width, h := placement.height }] }
  else banner

/-- Go `buildVideo` (`ssp.go`): W/H/pos from the placement, settings copied
when present, else the documented defaults (MP4+WebM, 5-30 s, VAST
protocols 2/3/5/6, linear). -/
def buildVideo (placement : Placement) : Video :=
  let video : Video := { w := placement.width, h := placement.height, pos := 1 }
  match placement.video with
  | some vs =>
      { video with mimes := vs.mimes, minDuration := vs.minDuration,
                   maxDuration := vs.maxDuration, protocols := vs.protocols,
                   linearity := vs.linearity, startDelay := vs.startDelay,
                   playbackMethod := vs.playbackMethod, api := vs.api }
  | none =>
      { video with mimes := ["video/mp4", "video/webm"], minDuration := 5,
                   maxDuration := 30, protocols := [2, 3, 5, 6], linearity := 1 }

/-- Go `BuildBidRequest` (`ssp.go`).  The three identifiers Go draws from
`uuid.New()` (request id, impression id, source transaction id) are passed
in explicitly to make the randomness a parameter.  The `switch` on
`placement.AdType` sets exactly one impression media object for `banner`,
`video` and `native`, and errors on every other ad type (there is no
`audio` case in the source). -/
def BuildBidRequest (reqID impID tid : String) (adReq : AdRequest)
    (placement : Placement) (site : Site) (pub : Publisher) :
    Except String BidRequest :=
  let baseImp : Impression :=
    { id := impID, tagID := placement.id, bidFloor := placement.minBidFloor,
      bidFloorCur := "USD", secure := 1 }
  let impE : Except String Impression :=
    if placement.adType = "banner" then
      .ok { baseImp with banner := some (buildBanner placement) }
    else if placement.adType = "video" then
      .ok { baseImp with video := some (buildVideo placement) }
    else if placement.adType = "native" then
      .ok { baseImp with native := some { request := "\x7b\"ver\":\"1.2\"\x7d", ver := "1.2" } }
    else
      .error ("unsupported ad type: " ++ placement.adType)
  match impE with
  | .error e => .error e
  | .ok imp =>
      .ok { id := reqID, imp := [imp],
            site := some { id := site.id, name := site.name, domain := site.domain,
                           page := adReq.url, ref := adReq.referer, cat := site.cat,
                           publisher := some { id := pub.id, name := pub.name,
                                               domain := pub.domain } },
            device := some { ua := adReq.userAgent, ip := adReq.ip },
            atType := 2, tmax := 120, cur := ["USD"],
            source := some { fd := 1, tid := tid } }

/-- A supply-chain node: Go `SupplyChainNode` (ads.cert 1.0). -/
structure SupplyChainNode where
  asi : String
  sid : String
  hp : Int := 0
  rid : String := ""
  name : String := ""
  domain : String := ""
deriving DecidableEq, Repr

/-- The OpenRTB SupplyChain object: Go `SupplyChain`. -/
structure SupplyChain where
  complete : Int
  nodes : List SupplyChainNode
  ver : String
deriving DecidableEq, Repr

/-- Go `SupplyChainBuilder`. -/
structure SupplyChainBuilder where
  ourASI : String
  ourSID : String
  ourName : String
  ourDomain : String
deriving DecidableEq, Repr

/-- Go `BuildForPublisher`: complete chain with our single direct node. -/
def BuildForPublisher (b : SupplyChainBuilder)
    (publisherID publisherDomain : String) : Except String SupplyChain :=
  if publisherID = "" then .error "publisher ID is required"
  else
    .ok { complete := 1, ver := "1.0",
          nodes := [{ asi := b.ourASI, sid := publisherID, hp := 0,
                      name := b.ourName, domain := publisherDomain }] }

/-- Go `BuildForIntermediary`: the caller-supplied intermediary nodes are
appended verbatim (the source performs no validation on them), followed by
our direct node; chain is marked complete. -/
def BuildForIntermediary (b : SupplyChainBuilder)
    (publisherID publisherDomain : String)
    (intermediaries : List SupplyChainNode) : Except String SupplyChain :=
  if publisherID = "" then .error "publisher ID is required"
  else
    .ok { complete := 1, ver := "1.0",
          nodes := intermediaries ++
            [{ asi := b.ourASI, sid := publisherID, hp := 0,
               name := b.ourName, domain := publisherDomain }] }

/-- Go `BuildIncomplete`: our node only, chain marked incomplete. -/
def BuildIncomplete (b : SupplyChainBuilder)
    (publisherID : String) : Except String SupplyChain :=
  if publisherID = "" then .error "publisher ID is required"
  else
    .ok { complete := 0, ver := "1.0",
          nodes := [{ asi := b.ourASI, sid := publisherID, hp := 0 }] }

/-- Go `validateNode`: non-empty ASI and SID, HP in {0,1}. -/
def validateNode (node : SupplyChainNode) : Except String Unit :=
  if node.asi = "" then
    .error "ASI (Advertising System Identifier) is required"
  else if node.sid = "" then
    .error "SID (Seller ID) is required"
  else if node.hp ≠ 0 ∧ node.hp ≠ 1 then
    .error s!"HP must be 0 or 1, got {node.hp}"
  else .ok ()

/-- The node loop of Go `ValidateSupplyChain`, threading the node index used
in the wrapped error message. -/
def validateNodesFrom : Nat → List SupplyChainNode → Except String Unit
  | _, [] => .ok ()
  | i, n :: ns =>
      match validateNode n with
      | .error e => .error (s!"node {i}: " ++ e)
      | .ok _ => validateNodesFrom (i + 1) ns

/-- Go `ValidateSupplyChain`; the `Option` argument models the nil pointer. -/
def ValidateSupplyChain : Option SupplyChain → Except String Unit
  | none => .error "supply chain is nil"
  | some schain =>
      if schain.nodes = [] then
        .error "supply chain must have at least one node"
      else if schain.ver = "" then
        .error "supply chain version is required"
      else validateNodesFrom 0 schain.nodes

/-- `true` iff the Go function returned a nil error. -/
def exceptOk {α : Type} : Except String α → Bool
  | .ok _ => true
  | .error _ => false

/-- `encoding/json` marshalling of one node: struct-order keys, with the
`omitempty` fields (`hp`, `rid`, `name`, `domain`) dropped at their zero
values. -/
def nodeToJson (n : SupplyChainNode) : Json :=
  Json.obj ([("asi", Json.str n.asi), ("sid", Json.str n.sid)]
    ++ (if n.hp = 0 then [] else [("hp", Json.num n.hp)])
    ++ (if n.rid = "" then [] else [("rid", Json.str n.rid)])
    ++ (if n.name = "" then [] else [("name", Json.str n.name)])
    ++ (if n.domain = "" then [] else [("domain", Json.str n.domain)]))

/-- Go `(*SupplyChain).ToJSON` = `json.Marshal`: struct-order keys
`complete`, `nodes`, `ver` (none carries `omitempty`). -/
def ToJSON (s : SupplyChain) : Json :=
  Json.obj [("complete", Json.num s.complete),
            ("nodes", Json.arr (s.nodes.map nodeToJson)),
            ("ver", Json.str s.ver)]

/-- Key lookup in a JSON object's field list.  Marshalled output never
carries duplicate keys, so first-match lookup coincides with
`encoding/json`'s last-wins processing on every input arising here. -/
def jLookup : List (String × Json) → String → Option Json
  | [], _ => none
  | (k, v) :: rest, key => if k = key then some v else jLookup rest key

/-- `encoding/json` unmarshalling of a string-typed struct field: absent or
`null` leaves the zero value, a JSON string is taken verbatim, any other
type is an unmarshal error. -/
def decStrField (fields : List (String × Json)) (key : String) : Option String :=
  match jLookup fields key with
  | none => some ""
  | some Json.null => some ""
  | some (Json.str s) => some s
  | some _ => none

/-- `encoding/json` unmarshalling of an int-typed struct field. -/
def decIntField (fields : List (String × Json)) (key : String) : Option Int :=
  match jLookup fields key with
  | none => some 0
  | some Json.null => some 0
  | some (Json.num n) => some n
  | some _ => none

/-- `encoding/json` unmarshalling of one `SupplyChainNode`. -/
def decNode : Json → Option SupplyChainNode
  | Json.null => some {asi := "", sid := ""}
  | Json.obj fields => do
      let asi ← decStrField fields "asi"
      let sid ← decStrField fields "sid"
      let hp ← decIntField fields "hp"
      let rid ← decStrField fields "rid"
      let name ← decStrField fields "name"
      let domain ← decStrField fields "domain"
      some { asi := asi, sid := sid, hp := hp, rid := rid,
             name := name, domain := domain }
  | _ => none

/-- Element-wise unmarshalling of the node array, failing on the first bad
element. -/
def decNodeList : List Json → Option (List SupplyChainNode)
  | [] => some []
  | j :: js => do
      let n ← decNode j
      let ns ← decNodeList js
      some (n :: ns)

/-- `encoding/json` unmarshalling of the node slice (`null` gives the nil
slice, modelled as `[]`). -/
def decNodes : Json → Option (List SupplyChainNode)
  | Json.null => some []
  | Json.arr elems => decNodeList elems
  | _ => none

/-- Go `FromJSON` = `json.Unmarshal` into a fresh `SupplyChain` (note: the
source applies no validation here).  The input models the parsed JSON text. -/
def FromJSON : Json → Option SupplyChain
  | Json.null => some { complete := 0, nodes := [], ver := "" }
  | Json.obj fields => do
      let complete ← decIntField fields "complete"
      let nodes ←
        match jLookup fields "nodes" with
        | none => some []
        | some v => decNodes v
      let ver ← decStrField fields "ver"
      some { complete := complete, nodes := nodes, ver := ver }
  | _ => none

/-- The fields of a parsed JSON object; any other value leaves the map
empty, mirroring the ignored `json.Unmarshal` error in `AddToSource`. -/
def objFieldsD : Json → List (String × Json)
  | Json.obj fields => fields
  | _ => []

/-- Assignment `extMap[k] = v` on the decoded `map[string]interface{}`. -/
def mapInsert (m : List (String × Json)) (k : String) (v : Json) :
    List (String × Json) :=
  m.filter (fun p => p.1 != k) ++ [(k, v)]

/-- Go `AddToSource`: validate the chain, decode the existing `source.ext`
through a type switch over `string` and `[]byte` (a `json.RawMessage` —
a distinct named type in Go — matches neither case and falls through with
an empty map), insert the chain at key `"schain"`, and store the re-encoded
object back as a `json.RawMessage`. -/
def AddToSource (source : Option Source) (schain : Option SupplyChain) :
    Except String Source :=
  match source with
  | none => .error "source is nil"
  | some src =>
      match schain with
      | none => .error "supply chain is nil"
      | some sc =>
          match ValidateSupplyChain (some sc) with
          | .error e => .error ("invalid supply chain: " ++ e)
          | .ok _ =>
              let extMap : List (String × Json) :=
                match src.ext with
                | some (ExtRep.str j) => objFieldsD j
                | some (ExtRep.bytes j) => objFieldsD j
                | _ => []
              let extMap2 := mapInsert extMap "schain" (ToJSON sc)
              .ok { src with ext := some (ExtRep.raw (Json.obj extMap2)) }

/-- A dynamically-typed value of the SSAI `params` map
(`map[string]interface{}`): the Go code only distinguishes strings (via the
type assertion `.(string)`) from everything else. -/
inductive ParamVal where
  | str (s : String)
  | other
deriving DecidableEq, Repr

/-- Go `PublicaSSAIRequest` (SSAI handler); fields read by
`convertToOpenRTB`. -/
structure PublicaSSAIRequest where
  publisherID : String := ""
  siteID : String := ""
  contentID : String := ""
  deviceID : String := ""
  ip : String := ""
  ua : String := ""
  floorPrice : ℚ := 0
  dealID : String := ""
  params : List (String × ParamVal) := []
  contentGenre : String := ""
  contentLanguage : String := ""
deriving DecidableEq, Repr

/-- Key lookup in the SSAI params map. -/
def lookupParam : List (String × ParamVal) → String → Option ParamVal
  | [], _ => none
  | (k, v) :: rest, key => if k = key then some v else lookupParam rest key

/-- Accumulate decimal digits; fails on the first non-digit. -/
def digitsValAux : Nat → List Char → Option Nat
  | acc, [] => some acc
  | acc, c :: rest =>
      if c.isDigit then digitsValAux (acc * 10 + (c.toNat - 48)) rest
      else none

/-- Go `strings.Split(s, "x")` for the single-character separator the SSAI
normalizer uses, over the character list of the string. -/
def splitOnX : List Char → List (List Char)
  | [] => [[]]
  | c :: rest =>
      match splitOnX rest with
      | [] => [[]]
      | p :: ps => if c = 'x' then [] :: p :: ps else (c :: p) :: ps

/-- `strconv.ParseInt(s, 10, 64)` syntax: optional sign followed by at
least one decimal digit; `none` models a syntax error. -/
def parseInt10 : List Char → Option Int
  | [] => none
  | '+' :: rest =>
      if rest = [] then none
      else (digitsValAux 0 rest).map (fun n => (n : Int))
  | '-' :: rest =>
      if rest = [] then none
      else (digitsValAux 0 rest).map (fun n => -(n : Int))
  | cs => (digitsValAux 0 cs).map (fun n => (n : Int))

def i64Max : Int := 2 ^ 63 - 1

def i64Min : Int := -(2 ^ 63)

/-- The value of `v, _ := strconv.ParseInt(s, 10, 64)` with the error
discarded, as the SSAI normalizer does: `0` on a syntax error, the clamped
extremum on overflow, the parsed value otherwise. -/
def parseInt64Val (s : List Char) : Int :=
  match parseInt10 s with
  | none => 0
  | some v => if v < i64Min then i64Min else if i64Max < v then i64Max else v

/-- The width/height computation of Go `convertToOpenRTB` (SSAI handler):
defaults `1920×1080` ("Default to Full HD"); when `params["size"]` is a
string that splits on `"x"` into exactly two parts, both dimensions are
overwritten with the `ParseInt` results, whose errors are discarded. -/
def ssaiSize (params : List (String × ParamVal)) : Int × Int :=
  match lookupParam params "size" with
  | some (ParamVal.str size) =>
      let parts := splitOnX size.data
      if parts.length = 2 then
        (parseInt64Val (parts.getD 0 []), parseInt64Val (parts.getD 1 []))
      else (1920, 1080)
  | _ => (1920, 1080)

/-- Go `convertToOpenRTB` (SSAI handler): single video impression with the
parsed size, floor from the request, site/content/device copied over, and a
PMP deal present iff the request carries a deal ID.  The `uuid.New()`
request id is passed in explicitly. -/
def convertToOpenRTB (reqID : String) (req : PublicaSSAIRequest) : BidRequest :=
  let wh := ssaiSize req.params
  { id := reqID,
    imp := [{ id := "1",
              video := some { w := wh.1, h := wh.2, minDuration := 5,
                              maxDuration := 30,
                              mimes := ["video/mp4", "video/webm"] },
              bidFloor := req.floorPrice,
              pmp := if req.dealID ≠ "" then
                       some { privateAuction := 1,
                              deals := [{ id := req.dealID,
                                          bidfloor := req.floorPrice }] }
                     else none }],
    site := some { id := req.siteID,
                   publisher := some { id := req.publisherID },
                   content := some { id := req.contentID,
                                     genre := req.contentGenre,
                                     language := req.contentLanguage } },
    device := some { ip := req.ip, ua := req.ua, ifa := req.deviceID } }

/-- A seller entry of sellers.json: Go `Seller`. -/
structure Seller where
  sellerID : String
  name : String := ""
  domain : String := ""
  sellerType : String
  isConfidential : Int := 0
  isPassthrough : Int := 0
deriving DecidableEq, Repr

/-- A seller identifier: Go `Identifier`. -/
structure Identifier where
  name : String
  value : String
deriving DecidableEq, Repr

/-- The sellers.json document: Go `SellersJSON`. -/
structure SellersJSON where
  contactEmail : String
  contactAddress : String := ""
  version : String
  identifiers : List Identifier := []
  sellers : List Seller
deriving DecidableEq, Repr

/-- Go `SellersJSONGenerator`. -/
structure SellersJSONGenerator where
  contactEmail : String
  contactAddress : String := ""
  version : String := "1.0"
  identifiers : List Identifier := []
deriving DecidableEq, Repr

/-- Go `GenerateFromPublishers` (`sellers_json.go`): skip inactive
publishers; each active one becomes a `"PUBLISHER"` seller with its id,
name and domain, confidential iff the domain is empty. -/
def GenerateFromPublishers (g : SellersJSONGenerator)
    (publishers : List Publisher) : SellersJSON :=
  let sellers := publishers.foldl (fun acc pub =>
    if !pub.active then acc
    else acc ++ [{ sellerID := pub.id, name := pub.name, domain := pub.domain,
                   sellerType := "PUBLISHER",
                   isConfidential := if pub.domain = "" then 1 else 0 : Seller }]) []
  { contactEmail := g.contactEmail, contactAddress := g.contactAddress,
    version := g.version, identifiers := g.identifiers, sellers := sellers }

/-! Concrete fixtures used by counterexample and witness theorems. -/

def wPartner1 : DemandPartner := { id := "partner-1", name := "Partner 1" }

def wPartner2 : DemandPartner := { id := "partner-2", name := "Partner 2" }

def wBid1 : Bid := { id := "bid-1", impid := "imp-1", price := 150 }

def wBid2 : Bid := { id := "bid-2", impid := "imp-1", price := 200 }

def wResp1 : BidResponse := { id := "resp-1", seatBid := [{ bid := [wBid1] }] }

def wResp2 : BidResponse := { id := "resp-2", seatBid := [{ bid := [wBid2] }] }

def wPlacement : Placement := { id := "placement-1", minBidFloor := 10 }

def wResponses : List (DemandPartner × Option BidResponse) :=
  [(wPartner1, some wResp1), (wPartner2, some wResp2)]

def wResult : AuctionResult :=
  { winningBid := wBid2, winningPartner := wPartner2,
    allBids := [{ bid := wBid2, partner := wPartner2 },
                { bid := wBid1, partner := wPartner1 }],
    auctionType := 2, clearedPrice := 150 }

def tiePartnerA : DemandPartner := { id := "a", name := "Partner A" }

def tiePartnerB : DemandPartner := { id := "b", name := "Partner B" }

def tieBidA : Bid := { id := "bid-a", impid := "imp-1", price := 100 }

def tieBidB : Bid := { id := "bid-b", impid := "imp-1", price := 100 }

def tieRespA : BidResponse := { seatBid := [{ bid := [tieBidA] }] }

def tieRespB : BidResponse := { seatBid := [{ bid := [tieBidB] }] }

def tiePlacement : Placement := { id := "placement-tie", minBidFloor := 10 }

def dealBid : Bid := { id := "bid-1", impid := "imp-1", price := 200, dealid := "OTHER" }

def dealResp : BidResponse := { seatBid := [{ bid := [dealBid] }] }

def dealPlacement : Placement := { id := "placement-deal", minBidFloor := 100 }

def adReqFix : AdRequest :=
  { placementID := "pl-1", url := "https://pub.example/page", referer := "ref",
    userAgent := "UA", ip := "192.0.2.1" }

def siteFix : Site := { id := "site-1", name := "Site", domain := "site.example" }

def pubFix : Publisher := { id := "pub-1", name := "Pub", domain := "pub.example" }

def audioPlacement : Placement :=
  { id := "pl-audio", adType := "audio", minBidFloor := 1 }

def bannerPlacement : Placement :=
  { id := "pl-banner", adType := "banner", width := 300, height := 250,
    minBidFloor := 1 }

def c6Chain : SupplyChain :=
  { complete := 1, nodes := [{ asi := "exchange.example", sid := "s-1" }], ver := "" }

def scBuilder : SupplyChainBuilder :=
  { ourASI := "ad.nexus", ourSID := "ssp-001", ourName := "AdNexus",
    ourDomain := "ad.nexus" }

def badNode : SupplyChainNode :=
  { asi := "", sid := "int-001", hp := 1, name := "Intermediary 1",
    domain := "intermediary1.example" }

def schainOK : SupplyChain :=
  { complete := 1, nodes := [{ asi := "ad.nexus", sid := "pub-001" }], ver := "1.0" }

def priorExt : Json := Json.obj [("omidpn", Json.str "SomePartner")]

def rawExtSource : Source :=
  { fd := 1, tid := "txn-001", ext := some (ExtRep.raw priorExt) }

def bytesExtSource : Source :=
  { fd := 1, tid := "txn-001", ext := some (ExtRep.bytes priorExt) }

def ssaiBadSize : PublicaSSAIRequest :=
  { publisherID := "p1-publica", siteID := "site-003", floorPrice := 1,
    params := [("size", ParamVal.str "fullxhd")] }

def ssaiGoodSize : PublicaSSAIRequest :=
  { publisherID := "p1-publica", siteID := "site-003", floorPrice := 1,
    params := [("size", ParamVal.str "1280x720")] }

def ssaiNoSize : PublicaSSAIRequest :=
  { publisherID := "p1-publica", siteID := "site-003", floorPrice := 1 }

def pubsFix : List Publisher :=
  [{ id := "pub-1", name := "P1", domain := "p1.example", active := true },
   { id := "pub-2", name := "P2", domain := "p2.example", active := false },
   { id := "pub-3", name := "P3", domain := "", active := true }]

def genFix : SellersJSONGenerator := { contactEmail := "ads@ssp.example" }

def c7Chain : SupplyChain :=
  { complete := 1, ver := "1.0",
    nodes := [badNode,
      { asi := "ad.nexus", sid := "pub-001", hp := 0, name := "AdNexus",
        domain := "publisher.example" }] }

/-- The decoded key set of the `ext` stored in a built source (empty on
error), used to state key-preservation properties of `AddToSource`. -/
def resultExtFields : Except String Source → List (String × Json)
  | .error _ => []
  | .ok src =>
      match src.ext with
      | some (ExtRep.raw j) => objFieldsD j
      | some (ExtRep.str j) => objFieldsD j
      | some (ExtRep.bytes j) => objFieldsD j
      | none => []

/-- The video width/height of the single impression of a built SSAI bid
request. -/
def ssaiVideoWH (br : BidRequest) : Option (Int × Int) :=
  br.imp.head?.bind (fun i => i.video.map (fun v => (v.w, v.h)))

/-- The seller record built from one active publisher (the loop body of
`GenerateFromPublishers`). -/
def mkSeller (p : Publisher) : Seller :=
  { sellerID := p.id, name := p.name, domain := p.domain,
    sellerType := "PUBLISHER",
    isConfidential := if p.domain = "" then 1 else 0 }

/-- The per-response contribution to the admitted-bid list. -/
def responseAdmitted (floor : ℚ) (pr : DemandPartner × Option BidResponse) :
    List BidWithPartner :=
  match pr.2 with
  | none => []
  | some resp => resp.seatBid.flatMap (fun sb =>
      (sb.bid.filter (fun b => decide (floor ≤ b.price))).map
        (fun b => (⟨b, pr.1⟩ : BidWithPartner)))

theorem selPass_length (x : BidWithPartner) (ys : List BidWithPartner) :
    (selPass x ys).2.length = ys.length := by
  induction ys generalizing x with
  | nil => rfl
  | cons y ys ih =>
      by_cases h : x.bid.price < y.bid.price <;> simp [selPass, h, ih]

theorem selPass_perm (x : BidWithPartner) (ys : List BidWithPartner) :
    List.Perm ((selPass x ys).1 :: (selPass x ys).2) (x :: ys) := by
  induction ys generalizing x with
  | nil => simp [selPass]
  | cons y ys ih =>
      by_cases h : x.bid.price < y.bid.price
      · simp only [selPass, if_pos h]
        exact (List.Perm.swap _ _ _).trans ((ih y).cons x)
      · simp only [selPass, if_neg h]
        exact (List.Perm.swap _ _ _).trans (((ih x).cons y).trans (List.Perm.swap _ _ _))

theorem le_selPass_head (x : BidWithPartner) (ys : List BidWithPartner) :
    x.bid.price ≤ (selPass x ys).1.bid.price := by
  induction ys generalizing x with
  | nil => simp [selPass]
  | cons y ys ih =>
      by_cases h : x.bid.price < y.bid.price
      · simp only [selPass, if_pos h]
        exact (le_of_lt h).trans (ih y)
      · simp only [selPass, if_neg h]
        exact ih x

theorem selPass_rest_le (x : BidWithPartner) (ys : List BidWithPartner) :
    ∀ z ∈ (selPass x ys).2, z.bid.price ≤ (selPass x ys).1.bid.price := by
  induction ys generalizing x with
  | nil => simp [selPass]
  | cons y ys ih =>
      by_cases h : x.bid.price < y.bid.price
      · simp only [selPass, if_pos h, List.mem_cons]
        rintro z (rfl | hz)
        · exact (le_of_lt h).trans (le_selPass_head y ys)
        · exact ih y z hz
      · simp only [selPass, if_neg h, List.mem_cons]
        rintro z (rfl | hz)
        · exact (not_lt.mp h).trans (le_selPass_head x ys)
        · exact ih x z hz

theorem goSortAux_perm (fuel : Nat) (l : List BidWithPartner) :
    List.Perm (goSortAux fuel l) l := by
  induction fuel generalizing l with
  | zero => simp [goSortAux]
  | succ fuel ih =>
      cases l with
      | nil => simp [goSortAux]
      | cons x xs =>
          rw [goSortAux]
          exact ((ih _).cons _).trans (selPass_perm x xs)

theorem goSortBids_perm (l : List BidWithPartner) : List.Perm (goSortBids l) l :=
  goSortAux_perm l.length l

theorem goSortAux_sorted (fuel : Nat) (l : List BidWithPartner)
    (hfuel : l.length ≤ fuel) :
    (goSortAux fuel l).Sorted (fun a b => a.bid.price ≥ b.bid.price) := by
  induction fuel generalizing l with
  | zero =>
      rw [Nat.le_zero, List.length_eq_zero] at hfuel
      subst hfuel
      simp [goSortAux]
  | succ fuel ih =>
      cases l with
      | nil => simp [goSortAux]
      | cons x xs =>
          rw [goSortAux, List.sorted_cons]
          refine ⟨fun b hb => ?_, ih _ ?_⟩
          · exact selPass_rest_le x xs b ((goSortAux_perm _ _).mem_iff.mp hb)
          · rw [selPass_length]
            exact Nat.le_of_succ_le_succ hfuel

theorem goSortBids_sorted (l : List BidWithPartner) :
    (goSortBids l).Sorted (fun a b => a.bid.price ≥ b.bid.price) :=
  goSortAux_sorted l.length l le_rfl

theorem foldl_admit_eq (floor : ℚ) (p : DemandPartner) (bs : List Bid)
    (init : List BidWithPartner) :
    bs.foldl (fun acc b =>
        if floor ≤ b.price then acc ++ [⟨b, p⟩] else acc) init
      = init ++ (bs.filter (fun b => decide (floor ≤ b.price))).map
          (fun b => (⟨b, p⟩ : BidWithPartner)) := by
  induction bs generalizing init with
  | nil => simp
  | cons b bs ih =>
      by_cases h : floor ≤ b.price <;>
        simp [List.filter_cons, h, ih, List.append_assoc]

theorem foldl_seatbids_eq (floor : ℚ) (p : DemandPartner) (sbs : List SeatBid)
    (init : List BidWithPartner) :
    sbs.foldl (fun acc sb =>
        sb.bid.foldl (fun acc2 b =>
          if floor ≤ b.price then acc2 ++ [⟨b, p⟩] else acc2) acc) init
      = init ++ sbs.flatMap (fun sb =>
          (sb.bid.filter (fun b => decide (floor ≤ b.price))).map
            (fun b => (⟨b, p⟩ : BidWithPartner))) := by
  induction sbs generalizing init with
  | nil => simp
  | cons sb sbs ih =>
      rw [List.foldl_cons, foldl_admit_eq, ih, List.flatMap_cons,
          List.append_assoc]

theorem admittedBids_eq (responses : List (DemandPartner × Option BidResponse))
    (placement : Placement) :
    admittedBids responses placement
      = responses.flatMap (responseAdmitted placement.minBidFloor) := by
  suffices h : ∀ init, responses.foldl (fun acc pr =>
      match pr.2 with
      | none => acc
      | some resp =>
          resp.seatBid.foldl (fun acc2 sb =>
            sb.bid.foldl (fun acc3 b =>
              if placement.minBidFloor ≤ b.price then acc3 ++ [⟨b, pr.1⟩]
              else acc3) acc2) acc) init
      = init ++ responses.flatMap (responseAdmitted placement.minBidFloor) by
    simpa [admittedBids] using h []
  induction responses with
  | nil => simp
  | cons pr prs ih =>
      intro init
      obtain ⟨p, r⟩ := pr
      cases r with
      | none => simpa [responseAdmitted] using ih init
      | some resp =>
          rw [List.foldl_cons]
          show List.foldl _ (resp.seatBid.foldl _ init) prs = _
          rw [foldl_seatbids_eq, ih, List.flatMap_cons, List.append_assoc]
          rfl

theorem mem_admittedBids (responses : List (DemandPartner × Option BidResponse))
    (placement : Placement) (bw : BidWithPartner) :
    bw ∈ admittedBids responses placement ↔
      inResponses responses bw ∧ placement.minBidFloor ≤ bw.bid.price := by
  rw [admittedBids_eq, List.mem_flatMap]
  constructor
  · rintro ⟨⟨p, r⟩, hpr, hmem⟩
    cases r with
    | none => simp [responseAdmitted] at hmem
    | some resp =>
        simp only [responseAdmitted, List.mem_flatMap, List.mem_map,
                   List.mem_filter, decide_eq_true_eq] at hmem
        obtain ⟨sb, hsb, b, ⟨hb, hfloor⟩, rfl⟩ := hmem
        exact ⟨⟨resp, hpr, sb, hsb, hb⟩, hfloor⟩
  · rintro ⟨⟨resp, hpr, sb, hsb, hb⟩, hfloor⟩
    refine ⟨(bw.partner, some resp), hpr, ?_⟩
    simp only [responseAdmitted, List.mem_flatMap, List.mem_map,
               List.mem_filter, decide_eq_true_eq]
    exact ⟨sb, hsb, bw.bid, ⟨hb, hfloor⟩, rfl⟩

theorem goSortBids_map_price (l : List BidWithPartner) :
    (goSortBids l).map (fun bw => bw.bid.price)
      = List.insertionSort (fun a b : ℚ => a ≥ b)
          (l.map (fun bw => bw.bid.price)) := by
  refine List.eq_of_perm_of_sorted (r := fun a b : ℚ => a ≥ b) ?_ ?_ ?_
  · exact ((goSortBids_perm l).map _).trans
      (List.perm_insertionSort _ _).symm
  · exact List.Pairwise.map _ (fun a b hab => hab) (goSortBids_sorted l)
  · exact List.sorted_insertionSort _ _

/-- Destructor for a successful auction run: a nonempty sorted list of the
admitted bids, from which every result field is read off. -/
theorem runAuction_some_iff (responses : List (DemandPartner × Option BidResponse))
    (placement : Placement) (r : AuctionResult)
    (h : RunAuction responses placement = some r) :
    ∃ rest, goSortBids (admittedBids responses placement)
        = { bid := r.winningBid, partner := r.winningPartner } :: rest ∧
      r.allBids = { bid := r.winningBid, partner := r.winningPartner } :: rest ∧
      r.auctionType = 2 ∧
      r.clearedPrice = (match rest with
        | [] => placement.minBidFloor
        | second :: _ =>
            if second.bid.price < placement.minBidFloor then placement.minBidFloor
            else second.bid.price) := by
  unfold RunAuction at h
  simp only [] at h
  split at h
  · exact absurd h (by simp)
  · split at h
    · exact absurd h (by simp)
    · rename_i winner rest hsort
      obtain rfl := Option.some.inj h
      exact ⟨rest, hsort, rfl, rfl, rfl⟩

/-- C1: under the always-second-price auction, a successful `RunAuction`
clears at the placement floor when exactly one bid is admitted, and at
`max(placement floor, second-highest admitted price)` when two or more
bids are admitted. -/
theorem C1_second_price_clearing
    (responses : List (DemandPartner × Option BidResponse))
    (placement : Placement) (r : AuctionResult)
    (h : RunAuction responses placement = some r) :
    r.auctionType = 2 ∧
    (r.allBids.length = 1 → r.clearedPrice = placement.minBidFloor) ∧
    (2 ≤ r.allBids.length →
      r.clearedPrice = max placement.minBidFloor
        (specSecondPrice ((admittedBids responses placement).map
          (fun bw => bw.bid.price)))) := by
  obtain ⟨rest, hsort, hall, htype, hclear⟩ :=
    runAuction_some_iff responses placement r h
  refine ⟨htype, ?_, ?_⟩
  · intro hlen
    rw [hall] at hlen
    cases rest with
    | nil => simpa using hclear
    | cons s t => simp at hlen
  · intro hlen
    rw [hall] at hlen
    cases rest with
    | nil => simp at hlen
    | cons s t =>
        have hmap := goSortBids_map_price (admittedBids responses placement)
        rw [hsort] at hmap
        have hsp : specSecondPrice ((admittedBids responses placement).map
            (fun bw => bw.bid.price)) = s.bid.price := by
          rw [specSecondPrice, ← hmap]
          simp
        rw [hsp, hclear]
        rcases lt_or_le s.bid.price placement.minBidFloor with hlt | hle
        · simp only [if_pos hlt]
          exact (max_eq_left (le_of_lt hlt)).symm
        · simp only [if_neg (not_lt.mpr hle)]
          exact (max_eq_right hle).symm

/-- Witness for C1 at the two-bid fixture: floor 10, prices 150 and 200;
the auction clears at `max(10, 150) = 150`. -/
theorem C1_witness :
    RunAuction wResponses wPlacement = some wResult ∧
    2 ≤ wResult.allBids.length ∧
    wResult.clearedPrice = max wPlacement.minBidFloor
      (specSecondPrice ((admittedBids wResponses wPlacement).map
        (fun bw => bw.bid.price))) :=
  ⟨by decide, by decide,
    (C1_second_price_clearing wResponses wPlacement wResult (by decide)).2.2
      (by decide)⟩

/-- C2: every admitted bid of a successful `RunAuction` is at or above the
placement floor, the comparison is inclusive — a bid whose price equals the
floor is admitted — and the cleared price lies between the floor and the
winning bid's price. -/
theorem C2_floor_invariant
    (responses : List (DemandPartner × Option BidResponse))
    (placement : Placement) (r : AuctionResult)
    (h : RunAuction responses placement = some r) :
    (∀ bw ∈ r.allBids, placement.minBidFloor ≤ bw.bid.price) ∧
    (∀ bw, inResponses responses bw →
      bw.bid.price = placement.minBidFloor → bw ∈ r.allBids) ∧
    placement.minBidFloor ≤ r.clearedPrice ∧
    r.clearedPrice ≤ r.winningBid.price := by
  obtain ⟨rest, hsort, hall, htype, hclear⟩ :=
    runAuction_some_iff responses placement r h
  have hadm : ∀ bw ∈ r.allBids, placement.minBidFloor ≤ bw.bid.price := by
    intro bw hbw
    rw [hall, ← hsort] at hbw
    exact ((mem_admittedBids responses placement bw).mp
      ((goSortBids_perm _).mem_iff.mp hbw)).2
  have hwin : placement.minBidFloor ≤ r.winningBid.price :=
    hadm _ (by rw [hall]; exact List.mem_cons_self _ _)
  have hincl : ∀ bw, inResponses responses bw →
      bw.bid.price = placement.minBidFloor → bw ∈ r.allBids := by
    intro bw hin heq
    rw [hall, ← hsort, (goSortBids_perm _).mem_iff]
    exact (mem_admittedBids responses placement bw).mpr ⟨hin, le_of_eq heq.symm⟩
  refine ⟨hadm, hincl, ?_, ?_⟩
  · rw [hclear]
    cases rest with
    | nil => exact le_rfl
    | cons s t =>
        rcases lt_or_le s.bid.price placement.minBidFloor with hlt | hle
        · simp [if_pos hlt]
        · simp [if_neg (not_lt.mpr hle), hle]
  · rw [hclear]
    cases rest with
    | nil => exact hwin
    | cons s t =>
        have hs : s.bid.price ≤ r.winningBid.price := by
          have hsorted := goSortBids_sorted (admittedBids responses placement)
          rw [hsort, List.sorted_cons] at hsorted
          exact hsorted.1 s (List.mem_cons_self _ _)
        rcases lt_or_le s.bid.price placement.minBidFloor with hlt | hle
        · simpa [if_pos hlt] using hwin
        · simpa [if_neg (not_lt.mpr hle)] using hs

/-- Witness for C2 at the two-bid fixture. -/
theorem C2_witness :
    (∀ bw ∈ wResult.allBids, wPlacement.minBidFloor ≤ bw.bid.price) ∧
    (∀ bw, inResponses wResponses bw →
      bw.bid.price = wPlacement.minBidFloor → bw ∈ wResult.allBids) ∧
    wPlacement.minBidFloor ≤ wResult.clearedPrice ∧
    wResult.clearedPrice ≤ wResult.winningBid.price :=
  C2_floor_invariant wResponses wPlacement wResult (by decide)

/-- C3 counterexample: `RunAuction` takes no deal identifier at all, and a
bid whose `dealid` is `"OTHER"` — never equal to any deal id (such as
`"PMP-2024-001"`) carried by the incoming request — is admitted and even
wins whenever its price clears the floor, so the claimed deal filtering
does not exist in the code. -/
theorem C3_counterexample :
    (RunAuction [(wPartner1, some dealResp)] dealPlacement).map
        (fun r => r.allBids.map (fun bw => bw.bid.dealid)) = some ["OTHER"] ∧
    "OTHER" ≠ "PMP-2024-001" := by
  exact ⟨by decide, by decide⟩

/-- C3 amended: the auction performs no deal filtering whatsoever — a bid is
admitted if and only if it occurs in some partner response and its price is
at or above the placement floor, regardless of the request's `dealid`, of
the bid's `dealid`, and of any deal targeting. -/
theorem C3_admission_ignores_deals
    (responses : List (DemandPartner × Option BidResponse))
    (placement : Placement) (r : AuctionResult)
    (h : RunAuction responses placement = some r) :
    ∀ bw, bw ∈ r.allBids ↔
      (inResponses responses bw ∧ placement.minBidFloor ≤ bw.bid.price) := by
  obtain ⟨rest, hsort, hall, htype, hclear⟩ :=
    runAuction_some_iff responses placement r h
  intro bw
  rw [hall, ← hsort, (goSortBids_perm _).mem_iff]
  exact mem_admittedBids responses placement bw

/-- Witness for the amended C3 at the deal fixture: the `"OTHER"`-deal bid
is admitted because it is present in the responses and beats the floor. -/
theorem C3_witness :
    { bid := dealBid, partner := wPartner1 } ∈
      (RunAuction [(wPartner1, some dealResp)] dealPlacement).elim []
        (fun r => r.allBids) := by
  have h : RunAuction [(wPartner1, some dealResp)] dealPlacement
      = some { winningBid := dealBid, winningPartner := wPartner1,
               allBids := [{ bid := dealBid, partner := wPartner1 }],
               auctionType := 2, clearedPrice := 100 } := by decide
  rw [h]
  exact (C3_admission_ignores_deals _ _ _ h _).mpr
    ⟨⟨dealResp, by decide, { bid := [dealBid] }, by decide, by decide⟩, by decide⟩

/-- C4 counterexample: two equal-priced bids (price 100, floor 10) from
partners `"a"` and `"b"`.  The sort breaks ties by arrival order, not by
partner id: with iteration order `[B, A]` partner `"b"` wins, with
`[A, B]` partner `"a"` wins — the claimed deterministic
partner-then-bid-id tie-break does not exist, and the winner depends on
the map-iteration order. -/
theorem C4_counterexample :
    (RunAuction [(tiePartnerB, some tieRespB), (tiePartnerA, some tieRespA)]
        tiePlacement).map (fun r => r.winningPartner.id) = some "b" ∧
    (RunAuction [(tiePartnerA, some tieRespA), (tiePartnerB, some tieRespB)]
        tiePlacement).map (fun r => r.winningPartner.id) = some "a" := by
  exact ⟨by decide, by decide⟩

/-- C4 amended: the ranking sorts by descending price only.  For a fixed
iteration order of the responses the result is a permutation of the
admitted bids, sorted descending by price, with the winner at its head;
equal-priced bids carry no partner-id or bid-id tie-break, so distinct
iteration orders of the same responses may produce distinct winners. -/
theorem C4_ranking_by_price_only
    (responses : List (DemandPartner × Option BidResponse))
    (placement : Placement) (r : AuctionResult)
    (h : RunAuction responses placement = some r) :
    r.allBids.Sorted (fun a b => a.bid.price ≥ b.bid.price) ∧
    List.Perm r.allBids (admittedBids responses placement) ∧
    r.allBids.head? = some { bid := r.winningBid, partner := r.winningPartner } := by
  obtain ⟨rest, hsort, hall, htype, hclear⟩ :=
    runAuction_some_iff responses placement r h
  refine ⟨?_, ?_, ?_⟩
  · rw [hall, ← hsort]
    exact goSortBids_sorted _
  · rw [hall, ← hsort]
    exact goSortBids_perm _
  · rw [hall]
    rfl

/-- Witness for the amended C4 at the tie fixture with iteration order
`[B, A]`. -/
theorem C4_witness :
    ([{ bid := tieBidB, partner := tiePartnerB },
      { bid := tieBidA, partner := tiePartnerA }] :
        List BidWithPartner).Sorted (fun a b => a.bid.price ≥ b.bid.price) := by
  have h : RunAuction [(tiePartnerB, some tieRespB), (tiePartnerA, some tieRespA)]
      tiePlacement = some
        { winningBid := tieBidB, winningPartner := tiePartnerB,
          allBids := [{ bid := tieBidB, partner := tiePartnerB },
                      { bid := tieBidA, partner := tiePartnerA }],
          auctionType := 2, clearedPrice := 100 } := by decide
  exact (C4_ranking_by_price_only _ _ _ h).1

/-- C5 counterexample: the `switch` in `BuildBidRequest` has cases only for
`banner`, `video` and `native`; a placement with `ad_type = "audio"` falls
to the default branch and the build fails instead of setting
`imp[0].audio`. -/
theorem C5_counterexample :
    BuildBidRequest "req-1" "imp-1" "tid-1" adReqFix audioPlacement siteFix pubFix
      = .error "unsupported ad type: audio" := by
  rfl

/-- C5 amended: for ad types `banner`, `video` and `native`,
`BuildBidRequest` succeeds with a single impression carrying exactly the one
media object dictated by the ad type (never `audio`); for `audio` — and any
other ad type — it returns the `unsupported ad type` error. -/
theorem C5_media_type_selection (reqID impID tid : String) (adReq : AdRequest)
    (placement : Placement) (site : Site) (pub : Publisher) :
    (placement.adType = "banner" →
      ∃ br, BuildBidRequest reqID impID tid adReq placement site pub = .ok br ∧
        ∃ i, br.imp = [i] ∧ i.banner = some (buildBanner placement) ∧
          i.video = none ∧ i.audio = none ∧ i.native = none) ∧
    (placement.adType = "video" →
      ∃ br, BuildBidRequest reqID impID tid adReq placement site pub = .ok br ∧
        ∃ i, br.imp = [i] ∧ i.banner = none ∧
          i.video = some (buildVideo placement) ∧ i.audio = none ∧
          i.native = none) ∧
    (placement.adType = "native" →
      ∃ br, BuildBidRequest reqID impID tid adReq placement site pub = .ok br ∧
        ∃ i, br.imp = [i] ∧ i.banner = none ∧ i.video = none ∧
          i.audio = none ∧ i.native.isSome = true) ∧
    (placement.adType ≠ "banner" → placement.adType ≠ "video" →
      placement.adType ≠ "native" →
      BuildBidRequest reqID impID tid adReq placement site pub =
        .error ("unsupported ad type: " ++ placement.adType)) := by
  refine ⟨?_, ?_, ?_, ?_⟩
  · intro h
    simp only [BuildBidRequest, h]
    exact ⟨_, rfl, _, rfl, rfl, rfl, rfl, rfl⟩
  · intro h
    simp only [BuildBidRequest, h]
    exact ⟨_, rfl, _, rfl, rfl, rfl, rfl, rfl⟩
  · intro h
    simp only [BuildBidRequest, h]
    exact ⟨_, rfl, _, rfl, rfl, rfl, rfl, rfl⟩
  · intro hb hv hn
    simp [BuildBidRequest, if_neg hb, if_neg hv, if_neg hn]

/-- Witness for the amended C5: the banner fixture builds successfully with
exactly the banner object set, and the audio fixture errors. -/
theorem C5_witness :
    (∃ br, BuildBidRequest "req-1" "imp-1" "tid-1" adReqFix bannerPlacement
        siteFix pubFix = .ok br ∧
      ∃ i, br.imp = [i] ∧ i.banner = some (buildBanner bannerPlacement) ∧
        i.video = none ∧ i.audio = none ∧ i.native = none) ∧
    BuildBidRequest "req-1" "imp-1" "tid-1" adReqFix audioPlacement siteFix
        pubFix = .error ("unsupported ad type: " ++ audioPlacement.adType) :=
  ⟨(C5_media_type_selection "req-1" "imp-1" "tid-1" adReqFix bannerPlacement
      siteFix pubFix).1 rfl,
   (C5_media_type_selection "req-1" "imp-1" "tid-1" adReqFix audioPlacement
      siteFix pubFix).2.2.2 (by decide) (by decide) (by decide)⟩

theorem decNode_nodeToJson (n : SupplyChainNode) : decNode (nodeToJson n) = some n := by
  obtain ⟨asi, sid, hp, rid, name, domain⟩ := n
  by_cases h1 : hp = 0 <;> by_cases h2 : rid = "" <;>
    by_cases h3 : name = "" <;> by_cases h4 : domain = "" <;>
      simp [nodeToJson, decNode, jLookup, decStrField, decIntField, h1, h2, h3, h4]

theorem decNodeList_map (ns : List SupplyChainNode) :
    decNodeList (ns.map nodeToJson) = some ns := by
  induction ns with
  | nil => rfl
  | cons n ns ih => simp [decNodeList, decNode_nodeToJson, ih]

theorem FromJSON_ToJSON (s : SupplyChain) : FromJSON (ToJSON s) = some s := by
  obtain ⟨complete, nodes, ver⟩ := s
  simp [ToJSON, FromJSON, decIntField, decStrField, jLookup, decNodes,
        decNodeList_map]

theorem validateNodesFrom_ok (i : Nat) (ns : List SupplyChainNode) :
    exceptOk (validateNodesFrom i ns) = true ↔
      ∀ n ∈ ns, n.asi ≠ "" ∧ n.sid ≠ "" ∧ (n.hp = 0 ∨ n.hp = 1) := by
  induction ns generalizing i with
  | nil => simp [validateNodesFrom, exceptOk]
  | cons n ns ih =>
      by_cases h1 : n.asi = ""
      · simp only [validateNodesFrom, validateNode, if_pos h1, exceptOk]
        simp [h1]
      · by_cases h2 : n.sid = ""
        · simp only [validateNodesFrom, validateNode, if_neg h1, if_pos h2,
                     exceptOk]
          simp [h2]
        · by_cases h3 : n.hp ≠ 0 ∧ n.hp ≠ 1
          · simp only [validateNodesFrom, validateNode, if_neg h1, if_neg h2,
                       if_pos h3, exceptOk]
            simp only [Bool.false_eq_true, false_iff]
            intro hall
            exact absurd ((hall n (List.mem_cons_self _ _)).2.2) (by tauto)
          · have h3' : n.hp = 0 ∨ n.hp = 1 := by tauto
            simp only [validateNodesFrom, validateNode, if_neg h1, if_neg h2,
                       if_neg h3]
            rw [ih]
            constructor
            · intro hall m hm
              rcases List.mem_cons.mp hm with rfl | hm2
              · exact ⟨h1, h2, h3'⟩
              · exact hall m hm2
            · intro hall m hm
              exact hall m (List.mem_cons_of_mem _ hm)

theorem ValidateSupplyChain_ok_iff (s : SupplyChain) :
    exceptOk (ValidateSupplyChain (some s)) = true ↔
      (s.nodes ≠ [] ∧ s.ver ≠ "" ∧
        ∀ n ∈ s.nodes, n.asi ≠ "" ∧ n.sid ≠ "" ∧ (n.hp = 0 ∨ n.hp = 1)) := by
  by_cases h1 : s.nodes = []
  · simp [ValidateSupplyChain, if_pos h1, exceptOk, h1]
  · by_cases h2 : s.ver = ""
    · simp [ValidateSupplyChain, if_neg h1, if_pos h2, exceptOk, h2]
    · rw [ValidateSupplyChain]
      simp only [if_neg h1, if_neg h2]
      rw [validateNodesFrom_ok]
      simp [h1, h2]

/-- C6 counterexample: the chain `c6Chain` (one well-formed node, empty
`ver`) round-trips through `ToJSON`/`FromJSON` and every node satisfies the
per-node conditions, yet `ValidateSupplyChain` rejects it (empty version),
so the claimed equivalence fails. -/
theorem C6_counterexample :
    ¬ (exceptOk (ValidateSupplyChain (some c6Chain)) = true ↔
        (FromJSON (ToJSON c6Chain) = some c6Chain ∧
         ∀ n ∈ c6Chain.nodes,
           n.asi ≠ "" ∧ n.sid ≠ "" ∧ (n.hp = 0 ∨ n.hp = 1))) := by
  intro hiff
  have hrt : FromJSON (ToJSON c6Chain) = some c6Chain := by rfl
  have hnodes : ∀ n ∈ c6Chain.nodes,
      n.asi ≠ "" ∧ n.sid ≠ "" ∧ (n.hp = 0 ∨ n.hp = 1) := by decide
  have hok := hiff.mpr ⟨hrt, hnodes⟩
  have hbad : exceptOk (ValidateSupplyChain (some c6Chain)) = false := by rfl
  rw [hok] at hbad
  exact absurd hbad (by decide)

/-- C6 amended: validation succeeds exactly when the chain has at least one
node, a non-empty version, and every node has non-empty ASI and SID with
HP in {0,1}; independently, the `ToJSON`/`FromJSON` round trip restores
every chain (validated or not), so validation success implies — but is not
equivalent to — round-trip stability plus the per-node conditions. -/
theorem C6_validate_and_roundtrip (s : SupplyChain) :
    (exceptOk (ValidateSupplyChain (some s)) = true ↔
      (s.nodes ≠ [] ∧ s.ver ≠ "" ∧
        ∀ n ∈ s.nodes, n.asi ≠ "" ∧ n.sid ≠ "" ∧ (n.hp = 0 ∨ n.hp = 1))) ∧
    FromJSON (ToJSON s) = some s :=
  ⟨ValidateSupplyChain_ok_iff s, FromJSON_ToJSON s⟩

/-- Witness for the amended C6 at the valid fixture `schainOK`: validation
succeeds and the round trip restores it. -/
theorem C6_witness :
    exceptOk (ValidateSupplyChain (some schainOK)) = true ∧
    FromJSON (ToJSON schainOK) = some schainOK :=
  ⟨(C6_validate_and_roundtrip schainOK).1.mpr
      ⟨by decide, by decide, by decide⟩,
   (C6_validate_and_roundtrip schainOK).2⟩

/-- C7 counterexample: `BuildForIntermediary` accepts a caller-supplied
intermediary node with an empty ASI without error, producing a chain that
`ValidateSupplyChain` rejects; and `FromJSON` of the empty object `{}`
succeeds, returning a chain (no nodes, empty version) that also fails
validation — so neither every constructor nor every parse validates. -/
theorem C7_counterexample :
    BuildForIntermediary scBuilder "pub-001" "publisher.example" [badNode]
      = .ok c7Chain ∧
    exceptOk (ValidateSupplyChain (some c7Chain)) = false ∧
    FromJSON (Json.obj []) = some { complete := 0, nodes := [], ver := "" } ∧
    exceptOk (ValidateSupplyChain
      (some { complete := 0, nodes := [], ver := "" })) = false := by
  exact ⟨by rfl, by rfl, by rfl, by rfl⟩

/-- C7 amended: the constructors check only that the publisher id is
non-empty — `BuildForIntermediary` appends the caller-supplied nodes
without validating them — and `FromJSON` applies no validation at all;
supply-chain validation (with failure surfaced as an error) is applied
only when the chain is embedded by `AddToSource`. -/
theorem C7_validation_only_in_AddToSource (b : SupplyChainBuilder)
    (pid pdom : String) (ins : List SupplyChainNode) :
    (pid = "" →
      BuildForIntermediary b pid pdom ins = .error "publisher ID is required") ∧
    (pid ≠ "" →
      BuildForIntermediary b pid pdom ins = .ok
        { complete := 1, ver := "1.0",
          nodes := ins ++ [{ asi := b.ourASI, sid := pid, hp := 0,
                             name := b.ourName, domain := pdom }] }) ∧
    (∀ (src : Source) (sc : SupplyChain),
      exceptOk (ValidateSupplyChain (some sc)) = false →
        exceptOk (AddToSource (some src) (some sc)) = false) := by
  refine ⟨fun h => by simp [BuildForIntermediary, h],
          fun h => by simp [BuildForIntermediary, h], ?_⟩
  intro src sc hval
  rcases hv : ValidateSupplyChain (some sc) with e | u
  · simp [AddToSource, hv, exceptOk]
  · rw [hv] at hval
    simp [exceptOk] at hval

/-- Witness for the amended C7: the bad-node construction succeeds, and
`AddToSource` rejects the invalid chain it produced. -/
theorem C7_witness :
    BuildForIntermediary scBuilder "pub-001" "publisher.example" [badNode]
      = .ok { complete := 1, ver := "1.0",
              nodes := [badNode] ++
                [{ asi := scBuilder.ourASI, sid := "pub-001", hp := 0,
                   name := scBuilder.ourName, domain := "publisher.example" }] } ∧
    exceptOk (AddToSource (some rawExtSource) (some c7Chain)) = false :=
  ⟨(C7_validation_only_in_AddToSource scBuilder "pub-001" "publisher.example"
      [badNode]).2.1 (by decide),
   (C7_validation_only_in_AddToSource scBuilder "pub-001" "publisher.example"
      [badNode]).2.2 rawExtSource c7Chain (by decide)⟩

/-- C8 (code bug): `AddToSource`'s type switch handles `string` and
`[]byte` but not `json.RawMessage` — the very type `AddToSource` itself
stores into `source.ext` and the type `ExtractFromSource` handles — so a
prior ext held as a `json.RawMessage` is silently discarded: after the
call, its key `"omidpn"` is gone, while the same payload held as `[]byte`
is preserved.  Fields of `Source` other than `Ext` are unchanged. -/
theorem C8_rawmessage_ext_dropped :
    jLookup (resultExtFields (AddToSource (some bytesExtSource)
      (some schainOK))) "omidpn" = some (Json.str "SomePartner") ∧
    jLookup (resultExtFields (AddToSource (some rawExtSource)
      (some schainOK))) "omidpn" = none ∧
    (jLookup (resultExtFields (AddToSource (some rawExtSource)
      (some schainOK))) "schain").isSome = true ∧
    (AddToSource (some rawExtSource) (some schainOK)).map
        (fun src => (src.fd, src.tid, src.pchain))
      = .ok (rawExtSource.fd, rawExtSource.tid, rawExtSource.pchain) :=
  ⟨rfl, rfl, rfl, rfl⟩

/-- C9 counterexample: `params["size"] = "fullxhd"` splits on `"x"` into
the two parts `"full"` and `"hd"`; both `ParseInt` calls fail, their errors
are discarded, and the impression's video is built at `0×0` — not at the
claimed `1920×1080` default. -/
theorem C9_counterexample :
    ssaiVideoWH (convertToOpenRTB "req-1" ssaiBadSize) = some (0, 0) := by
  rfl

/-- C9 amended: the `1920×1080` default survives only when the `size` param
is absent, not a string, or does not split on `"x"` into exactly two
parts; when it does split into two parts, the width and height are the raw
`ParseInt` results — `0` for a non-numeric component — with the errors
discarded. -/
theorem C9_size_parsing (reqID : String) (req : PublicaSSAIRequest) :
    (∀ s, lookupParam req.params "size" = some (ParamVal.str s) →
      (splitOnX s.data).length = 2 →
        ssaiVideoWH (convertToOpenRTB reqID req)
          = some (parseInt64Val ((splitOnX s.data).getD 0 []),
                  parseInt64Val ((splitOnX s.data).getD 1 []))) ∧
    (∀ s, lookupParam req.params "size" = some (ParamVal.str s) →
      (splitOnX s.data).length ≠ 2 →
        ssaiVideoWH (convertToOpenRTB reqID req) = some (1920, 1080)) ∧
    ((∀ s, lookupParam req.params "size" ≠ some (ParamVal.str s)) →
      ssaiVideoWH (convertToOpenRTB reqID req) = some (1920, 1080)) := by
  refine ⟨?_, ?_, ?_⟩
  · intro s hs hlen
    simp [convertToOpenRTB, ssaiVideoWH, ssaiSize, hs, hlen]
  · intro s hs hlen
    simp [convertToOpenRTB, ssaiVideoWH, ssaiSize, hs, hlen]
  · intro hnone
    rcases hl : lookupParam req.params "size" with _ | v
    · simp [convertToOpenRTB, ssaiVideoWH, ssaiSize, hl]
    · cases v with
      | str s => exact absurd hl (hnone s)
      | other => simp [convertToOpenRTB, ssaiVideoWH, ssaiSize, hl]

/-- Witness for the amended C9: `"1280x720"` parses to `1280×720`,
`"fullxhd"` parses to `0×0`, and an absent size defaults to `1920×1080`. -/
theorem C9_witness :
    ssaiVideoWH (convertToOpenRTB "req-1" ssaiGoodSize) = some (1280, 720) ∧
    ssaiVideoWH (convertToOpenRTB "req-1" ssaiBadSize) = some (0, 0) ∧
    ssaiVideoWH (convertToOpenRTB "req-1" ssaiNoSize) = some (1920, 1080) :=
  ⟨by
    have h := (C9_size_parsing "req-1" ssaiGoodSize).1 "1280x720" (by rfl)
      (by decide)
    simpa using h,
   by
    have h := (C9_size_parsing "req-1" ssaiBadSize).1 "fullxhd" (by rfl)
      (by decide)
    simpa using h,
   by
    have h := (C9_size_parsing "req-1" ssaiNoSize).2.2 (fun s => by simp [lookupParam])
    simpa using h⟩

theorem generate_sellers_eq (g : SellersJSONGenerator) (pubs : List Publisher) :
    (GenerateFromPublishers g pubs).sellers
      = (pubs.filter (fun p => p.active)).map mkSeller := by
  show pubs.foldl (fun acc pub =>
      if !pub.active then acc else acc ++ [mkSeller pub]) [] = _
  suffices h : ∀ init : List Seller, pubs.foldl (fun acc pub =>
      if !pub.active then acc else acc ++ [mkSeller pub]) init
      = init ++ (pubs.filter (fun p => p.active)).map mkSeller by
    simpa using h []
  induction pubs with
  | nil => simp
  | cons p ps ih =>
      intro init
      rw [List.foldl_cons, List.filter_cons]
      cases hp : p.active
      · simpa [hp] using ih init
      · simpa [hp, List.append_assoc] using ih (init ++ [mkSeller p])

/-- C10: every seller emitted by `GenerateFromPublishers` is a
`"PUBLISHER"`-type projection of an active catalog publisher with the same
id (confidential when the publisher's domain is empty), there is exactly
one seller per active publisher, and inactive publishers are omitted. -/
theorem C10_sellers_projection (g : SellersJSONGenerator)
    (pubs : List Publisher) :
    (∀ e ∈ (GenerateFromPublishers g pubs).sellers,
      e.sellerType = "PUBLISHER" ∧
      (e.domain = "" → e.isConfidential = 1) ∧
      ∃ p ∈ pubs, p.active = true ∧ p.id = e.sellerID ∧ p.name = e.name ∧
        p.domain = e.domain) ∧
    (GenerateFromPublishers g pubs).sellers.length
      = (pubs.filter (fun p => p.active)).length ∧
    (∀ p ∈ pubs, p.active = true →
      ∃ e ∈ (GenerateFromPublishers g pubs).sellers, e.sellerID = p.id) := by
  have hs := generate_sellers_eq g pubs
  refine ⟨?_, by rw [hs, List.length_map], ?_⟩
  · intro e he
    rw [hs, List.mem_map] at he
    obtain ⟨p, hp, rfl⟩ := he
    rw [List.mem_filter] at hp
    refine ⟨rfl, ?_, p, hp.1, by simpa using hp.2, rfl, rfl, rfl⟩
    intro hdom
    simp only [mkSeller] at hdom ⊢
    simp [hdom]
  · intro p hp hact
    refine ⟨mkSeller p, ?_, rfl⟩
    rw [hs, List.mem_map]
    exact ⟨p, List.mem_filter.mpr ⟨hp, by simp [hact]⟩, rfl⟩

/-- Witness for C10 at a three-publisher fixture (one active with domain,
one inactive, one active with empty domain): the inactive one is omitted
and the empty-domain one is emitted confidential. -/
theorem C10_witness :
    (GenerateFromPublishers genFix pubsFix).sellers.length
        = (pubsFix.filter (fun p => p.active)).length ∧
    (∀ e ∈ (GenerateFromPublishers genFix pubsFix).sellers,
      e.sellerType = "PUBLISHER" ∧
      (e.domain = "" → e.isConfidential = 1) ∧
      ∃ p ∈ pubsFix, p.active = true ∧ p.id = e.sellerID ∧ p.name = e.name ∧
        p.domain = e.domain) :=
  ⟨(C10_sellers_projection genFix pubsFix).2.1,
   (C10_sellers_projection genFix pubsFix).1⟩
